import Mathlib

/-!
Verification of `mcp_tools.py` (dynamic MCP tool registration).

The Python module is shallowly embedded: JSON values parsed by `json.loads`
become the inductive type `Json`; Python operations that can raise
(`x[k]`, `.get`, `in`, `len`, iteration, `re.sub` on a non-string) become
functions into `Except String _` whose error carries the exception's text;
the process environment is a function `String → Option String`; the HTTP
transport (`httpx.post` + `raise_for_status` + `.json()`) is an oracle
`url → headers → payload → Except String Json` whose error is a raised
transport exception's text.  Exception message texts for standard Python
exceptions are modelled (tagged with the exception class), not
byte-for-byte CPython output; no theorem below depends on their exact
wording beyond being distinct from the program's own formatted strings.
-/

/-- A JSON value as produced by `json.loads`: `None`, `bool`, `int`,
`str`, `list`, `dict` (keys unique, in first-occurrence order, as a
Python dict built by the parser).  Numbers are restricted to the integer
subset; no claim below involves fractional numbers. -/
inductive Json where
  | null : Json
  | bool (b : Bool) : Json
  | num (n : Int) : Json
  | str (s : String) : Json
  | arr (xs : List Json) : Json
  | obj (kvs : List (String × Json)) : Json

mutual

/-- Python `==` on JSON values (including the `True == 1` / `False == 0`
numeric identification; dict comparison here is positional, which agrees
with Python on the parser's canonical key order). -/
def jsonEqB : Json → Json → Bool
  | Json.null, Json.null => true
  | Json.bool a, Json.bool b => a == b
  | Json.bool a, Json.num n => n == (if a then 1 else 0)
  | Json.num n, Json.bool a => n == (if a then 1 else 0)
  | Json.num a, Json.num b => a == b
  | Json.str a, Json.str b => a == b
  | Json.arr xs, Json.arr ys => jsonEqListB xs ys
  | Json.obj xs, Json.obj ys => jsonEqObjB xs ys
  | _, _ => false

def jsonEqListB : List Json → List Json → Bool
  | [], [] => true
  | x :: xs, y :: ys => jsonEqB x y && jsonEqListB xs ys
  | _, _ => false

def jsonEqObjB : List (String × Json) → List (String × Json) → Bool
  | [], [] => true
  | (k, v) :: xs, (l, w) :: ys => k == l && jsonEqB v w && jsonEqObjB xs ys
  | _, _ => false

end

/-- First (= unique) binding of a key in a parsed dict. -/
def dictLookup (kvs : List (String × Json)) (key : String) : Option Json :=
  match kvs with
  | [] => none
  | (k, v) :: rest => if k = key then some v else dictLookup rest key

/-- Python repr of a `str`: quote with a single quote, or a double quote
when the text contains a single quote but no double quote; escape the
backslash, the chosen quote, and the common control characters. -/
def pyReprStr (s : String) : String :=
  let sq : Char := Char.ofNat 39
  let q : Char := if s.data.contains sq && !s.data.contains '"' then '"' else sq
  let esc : Char → String := fun c =>
    if c = '\\' then "\\\\"
    else if c = q then String.mk ['\\', q]
    else if c = '\n' then "\\n"
    else if c = '\r' then "\\r"
    else if c = '\t' then "\\t"
    else String.singleton c
  String.singleton q ++ String.join (s.data.map esc) ++ String.singleton q

mutual

/-- Python `repr` of a JSON value (as used inside containers by `str`). -/
def pyRepr : Json → String
  | Json.null => "None"
  | Json.bool true => "True"
  | Json.bool false => "False"
  | Json.num n => toString n
  | Json.str s => pyReprStr s
  | Json.arr xs => "[" ++ pyReprElems xs ++ "]"
  | Json.obj kvs => "\x7b" ++ pyReprFields kvs ++ "\x7d"

def pyReprElems : List Json → String
  | [] => ""
  | [x] => pyRepr x
  | x :: rest => pyRepr x ++ ", " ++ pyReprElems rest

def pyReprFields : List (String × Json) → String
  | [] => ""
  | [(k, v)] => pyReprStr k ++ ": " ++ pyRepr v
  | (k, v) :: rest => pyReprStr k ++ ": " ++ pyRepr v ++ ", " ++ pyReprFields rest

end

/-- Python `str()` of a JSON value: a `str` is itself, anything else its repr. -/
def pyStr : Json → String
  | Json.str s => s
  | j => pyRepr j

/-- Python truthiness of a JSON value. -/
def pyTruthy : Json → Bool
  | Json.null => false
  | Json.bool b => b
  | Json.num n => n != 0
  | Json.str s => s != ""
  | Json.arr xs => !xs.isEmpty
  | Json.obj kvs => !kvs.isEmpty

/-- Python `x[key]` with a string key: dict lookup (`KeyError` when the
key is missing), `TypeError` on every non-dict value. -/
def getItem (j : Json) (key : String) : Except String Json :=
  match j with
  | Json.obj kvs =>
    match dictLookup kvs key with
    | some v => Except.ok v
    | none => Except.error ("KeyError: " ++ key)
  | Json.str _ => Except.error "TypeError: string indices must be integers"
  | Json.arr _ => Except.error "TypeError: list indices must be integers"
  | _ => Except.error "TypeError: object is not subscriptable"

/-- Python `x.get(key, default)`: dict method, `AttributeError` on a non-dict. -/
def dictGet (j : Json) (key : String) (dflt : Json) : Except String Json :=
  match j with
  | Json.obj kvs => Except.ok ((dictLookup kvs key).getD dflt)
  | _ => Except.error "AttributeError: object has no attribute get"

/-- `needle` occurs in `hay` as a contiguous sublist. -/
def charSublist (needle : List Char) : List Char → Bool
  | [] => needle.isEmpty
  | c :: rest => needle.isPrefixOf (c :: rest) || charSublist needle rest

/-- Python `key in j` for a string `key`: dict key membership, list
element membership, substring test on a string, `TypeError` otherwise. -/
def pyInStr (key : String) (j : Json) : Except String Bool :=
  match j with
  | Json.obj kvs => Except.ok (kvs.any (fun kv => kv.1 == key))
  | Json.arr xs => Except.ok (xs.any (fun x => jsonEqB x (Json.str key)))
  | Json.str s => Except.ok (charSublist key.data s.data)
  | _ => Except.error "TypeError: argument is not iterable"

/-- Python `x in container` for an arbitrary value `x`. Dicts hash their
keys, so an unhashable `x` (list/dict) raises there; `in` on a string
requires a string left operand. -/
def pyInVal (x : Json) (container : Json) : Except String Bool :=
  match container with
  | Json.arr xs => Except.ok (xs.any (fun y => jsonEqB y x))
  | Json.obj kvs =>
    match x with
    | Json.str s => Except.ok (kvs.any (fun kv => kv.1 == s))
    | Json.arr _ => Except.error "TypeError: unhashable type"
    | Json.obj _ => Except.error "TypeError: unhashable type"
    | _ => Except.ok false
  | Json.str s =>
    match x with
    | Json.str t => Except.ok (charSublist t.data s.data)
    | _ => Except.error "TypeError: in string requires string as left operand"
  | _ => Except.error "TypeError: argument is not iterable"

/-- Python `len` on a JSON value, when defined. -/
def pyLen : Json → Option Nat
  | Json.str s => some s.length
  | Json.arr xs => some xs.length
  | Json.obj kvs => some kvs.length
  | _ => none

/-- Python `len`, raising `TypeError` on sizeless values. -/
def pyLenE (j : Json) : Except String Nat :=
  match pyLen j with
  | some n => Except.ok n
  | none => Except.error "TypeError: object has no len"

/-- Python iteration over a JSON value: a list yields its elements, a
dict its keys, a string its characters; `TypeError` otherwise. -/
def pyIter (j : Json) : Except String (List Json) :=
  match j with
  | Json.arr xs => Except.ok xs
  | Json.obj kvs => Except.ok (kvs.map (fun kv => Json.str kv.1))
  | Json.str s => Except.ok (s.data.map (fun c => Json.str (String.singleton c)))
  | _ => Except.error "TypeError: object is not iterable"

/-- The process environment: `os.getenv`. -/
abbrev EnvMap := String → Option String

/-- A `\w` word character of the pattern in `substitute_env_vars`. -/
def isWordChar (c : Char) : Bool := c.isAlphanum || c = '_'

/-- Match `\x7b\w+\x7d` at the head of the input (the part of the
pattern after `$`): on success return the identifier and the rest. -/
def matchBraceName : List Char → Option (String × List Char)
  | c :: rest =>
    if c = Char.ofNat 123 then
      let name := rest.takeWhile isWordChar
      match rest.dropWhile isWordChar with
      | d :: rest2 =>
        if d = Char.ofNat 125 && !name.isEmpty then some (String.mk name, rest2)
        else none
      | [] => none
    else none
  | [] => none

theorem dropWhile_length_le (p : α → Bool) (l : List α) :
    (l.dropWhile p).length ≤ l.length := by
  induction l with
  | nil => simp [List.dropWhile]
  | cons a l ih =>
    by_cases h : p a
    · simpa [List.dropWhile, h] using Nat.le_succ_of_le ih
    · simp [List.dropWhile, h]

theorem matchBraceName_length {cs rest : List Char} {name : String}
    (h : matchBraceName cs = some (name, rest)) : rest.length < cs.length := by
  cases cs with
  | nil => simp [matchBraceName] at h
  | cons c cs' =>
    simp only [matchBraceName] at h
    split at h
    · split at h
      · rename_i d rest2 heq
        split at h
        · rename_i hcond
          cases h
          have h3 : (List.dropWhile isWordChar cs').length ≤ cs'.length :=
            dropWhile_length_le _ _
          rw [heq] at h3
          simp only [List.length_cons] at h3 ⊢
          omega
        · exact absurd h (by simp)
      · exact absurd h (by simp)
    · exact absurd h (by simp)

/-- One fuelled step sequence of
`re.sub(r'\$\x7b(\w+)\x7d', replace, value)` over the character list:
the regex engine scans left to right; at a `$` that heads a full match
the capture is replaced by `os.getenv(name, "")`, otherwise the engine
advances one character.  Fuel only makes the recursion structural; it is
always called with fuel ≥ the list length, which each step preserves. -/
def substCharsF (env : EnvMap) : Nat → List Char → List Char
  | 0, _ => []
  | fuel + 1, cs =>
    match cs with
    | [] => []
    | c :: rest =>
      if c = '$' then
        match matchBraceName rest with
        | some (name, rest2) => ((env name).getD "").data ++ substCharsF env fuel rest2
        | none => c :: substCharsF env fuel rest
      else c :: substCharsF env fuel rest

/-- `substitute_env_vars`: replace `$\x7bVAR_NAME\x7d` with environment
variable values. -/
def substitute_env_vars (env : EnvMap) (value : String) : String :=
  String.mk (substCharsF env value.data.length value.data)

example : substitute_env_vars (fun v => if v = "A" then some "x" else none)
    (String.mk ['$', Char.ofNat 123, 'A', Char.ofNat 125, '!']) = "x!" := by rfl

example : substitute_env_vars (fun _ => none) "plain" = "plain" := by rfl

/-- Skip JSON whitespace (space, tab, newline, carriage return). -/
def skipWs : List Char → List Char
  | c :: rest =>
    if c = ' ' || c = '\t' || c = '\n' || c = '\r' then skipWs rest else c :: rest
  | [] => []

/-- Decimal digits at the head of the input. -/
def takeDigits (cs : List Char) : List Char × List Char :=
  (cs.takeWhile Char.isDigit, cs.dropWhile Char.isDigit)

/-- Decimal value of a digit list. -/
def digitsVal : List Char → Nat
  | [] => 0
  | c :: rest => (c.toNat - 48) * 10 ^ rest.length + digitsVal rest

/-- The `\x7b` character. -/
def obChar : Char := Char.ofNat 123

/-- The `\x7d` character. -/
def cbChar : Char := Char.ofNat 125

/-- Hex digit value. -/
def hexVal (c : Char) : Option Nat :=
  if c.isDigit then some (c.toNat - 48)
  else if 'a' ≤ c && c ≤ 'f' then some (c.toNat - 87)
  else if 'A' ≤ c && c ≤ 'F' then some (c.toNat - 55)
  else none

/-- Body of a JSON string literal (after the opening quote): returns the
decoded characters and the input after the closing quote.  Handles the
standard escapes and `\uXXXX`; rejects raw control characters, as
`json.loads` does in strict mode. -/
def parseStrChars : Nat → List Char → Option (List Char × List Char)
  | 0, _ => none
  | fuel + 1, cs =>
    match cs with
    | [] => none
    | c :: rest =>
      if c = '"' then some ([], rest)
      else if c = '\\' then
        match rest with
        | [] => none
        | e :: rest2 =>
          let esc : Option (Char × List Char) :=
            if e = '"' then some ('"', rest2)
            else if e = '\\' then some ('\\', rest2)
            else if e = '/' then some ('/', rest2)
            else if e = 'b' then some (Char.ofNat 8, rest2)
            else if e = 'f' then some (Char.ofNat 12, rest2)
            else if e = 'n' then some ('\n', rest2)
            else if e = 'r' then some ('\r', rest2)
            else if e = 't' then some ('\t', rest2)
            else if e = 'u' then
              match rest2 with
              | h1 :: h2 :: h3 :: h4 :: rest3 =>
                match hexVal h1, hexVal h2, hexVal h3, hexVal h4 with
                | some a, some b, some c, some d =>
                  some (Char.ofNat (((a * 16 + b) * 16 + c) * 16 + d), rest3)
                | _, _, _, _ => none
              | _ => none
            else none
          match esc with
          | some (ch, rest3) =>
            (parseStrChars fuel rest3).map (fun p => (ch :: p.1, p.2))
          | none => none
      else if c.toNat < 32 then none
      else (parseStrChars fuel rest).map (fun p => (c :: p.1, p.2))

/-- An unsigned JSON integer at the head of the input; rejects leading
zeros and (as a modelled restriction) fraction/exponent parts. -/
def parseNumNat (cs : List Char) : Option (Nat × List Char) :=
  let ds := cs.takeWhile Char.isDigit
  let rest := cs.dropWhile Char.isDigit
  if ds.isEmpty then none
  else if ds.head? = some '0' && ds.length > 1 then none
  else
    match rest with
    | c :: _ => if c = '.' || c = 'e' || c = 'E' then none else some (digitsVal ds, rest)
    | [] => some (digitsVal ds, rest)

/-- Insert a member into a parsed dict the way a Python dict does:
an existing key keeps its position and takes the new value. -/
def dictUpsert (kvs : List (String × Json)) (k : String) (v : Json) :
    List (String × Json) :=
  match kvs with
  | [] => [(k, v)]
  | (k1, v1) :: rest =>
    if k1 = k then (k1, v) :: rest else (k1, v1) :: dictUpsert rest k v

mutual

/-- One JSON value at the head of the input (whitespace allowed before),
with the remaining input.  Fuel only makes the mutual recursion
structural; `jsonLoads` supplies more fuel than the input length. -/
def parseValue : Nat → List Char → Option (Json × List Char)
  | 0, _ => none
  | fuel + 1, cs =>
    match skipWs cs with
    | 'n' :: 'u' :: 'l' :: 'l' :: rest => some (Json.null, rest)
    | 't' :: 'r' :: 'u' :: 'e' :: rest => some (Json.bool true, rest)
    | 'f' :: 'a' :: 'l' :: 's' :: 'e' :: rest => some (Json.bool false, rest)
    | '"' :: rest =>
      (parseStrChars fuel rest).map (fun p => (Json.str (String.mk p.1), p.2))
    | '[' :: rest => parseArrTail fuel rest
    | '-' :: rest =>
      (parseNumNat rest).map (fun p => (Json.num (-(p.1 : Int)), p.2))
    | c :: rest =>
      if c = obChar then parseObjTail fuel rest
      else if c.isDigit then
        (parseNumNat (c :: rest)).map (fun p => (Json.num (p.1 : Int), p.2))
      else none
    | [] => none

/-- The rest of an array after `[`. -/
def parseArrTail : Nat → List Char → Option (Json × List Char)
  | 0, _ => none
  | fuel + 1, cs =>
    match skipWs cs with
    | ']' :: rest => some (Json.arr [], rest)
    | cs1 =>
      match parseValue fuel cs1 with
      | some (v, rest) =>
        (parseArrRest fuel rest).map (fun p => (Json.arr (v :: p.1), p.2))
      | none => none

/-- `(, value)* ]` after an array item. -/
def parseArrRest : Nat → List Char → Option (List Json × List Char)
  | 0, _ => none
  | fuel + 1, cs =>
    match skipWs cs with
    | ']' :: rest => some ([], rest)
    | ',' :: rest =>
      match parseValue fuel rest with
      | some (v, rest2) =>
        (parseArrRest fuel rest2).map (fun p => (v :: p.1, p.2))
      | none => none
    | _ => none

/-- The rest of an object after `\x7b`. -/
def parseObjTail : Nat → List Char → Option (Json × List Char)
  | 0, _ => none
  | fuel + 1, cs =>
    match skipWs cs with
    | [] => none
    | c :: rest =>
      if c = cbChar then some (Json.obj [], rest)
      else
        match parseMember fuel (c :: rest) with
        | some (k, v, rest2) =>
          (parseObjRest fuel (dictUpsert [] k v) rest2).map
            (fun p => (Json.obj p.1, p.2))
        | none => none

/-- `(, member)* \x7d` after an object member: fold the remaining
members into the accumulated dict in insertion order, as a Python dict
comprehension does. -/
def parseObjRest : Nat → List (String × Json) → List Char →
    Option (List (String × Json) × List Char)
  | 0, _, _ => none
  | fuel + 1, acc, cs =>
    match skipWs cs with
    | [] => none
    | c :: rest =>
      if c = cbChar then some (acc, rest)
      else if c = ',' then
        match parseMember fuel rest with
        | some (k, v, rest2) => parseObjRest fuel (dictUpsert acc k v) rest2
        | none => none
      else none

/-- One `"key": value` member. -/
def parseMember : Nat → List Char → Option (String × Json × List Char)
  | 0, _ => none
  | fuel + 1, cs =>
    match skipWs cs with
    | '"' :: rest =>
      match parseStrChars fuel rest with
      | some (kcs, rest2) =>
        match skipWs rest2 with
        | ':' :: rest3 =>
          (parseValue fuel rest3).map (fun p => (String.mk kcs, p.1, p.2))
        | _ => none
      | none => none
    | _ => none

end

/-- `json.loads` on the modelled JSON subset: one value, optionally
surrounded by whitespace; `none` is a raised `json.JSONDecodeError`. -/
def jsonLoads (s : String) : Option Json :=
  match parseValue (s.length + 16) s.data with
  | some (v, rest) => if skipWs rest = [] then some v else none
  | none => none

example : jsonLoads "[]" = some (Json.arr []) := by rfl
example : jsonLoads " [1, \"a\", null] " =
    some (Json.arr [Json.num 1, Json.str "a", Json.null]) := by rfl
example : jsonLoads "not json" = none := by rfl

/-- `load_mcp_config`: read `MCP_SERVERS_JSON` (default `"[]"`), apply
environment substitution to the whole string, parse it.  A
`JSONDecodeError` is caught and yields `[]`; the success branch logs
`len(config)`, which raises an uncaught `TypeError` on a sizeless value. -/
def load_mcp_config (env : EnvMap) : Except String Json :=
  let config_str := (env "MCP_SERVERS_JSON").getD "[]"
  let config_str := substitute_env_vars env config_str
  match jsonLoads config_str with
  | some config =>
    match pyLenE config with
    | Except.ok _ => Except.ok config
    | Except.error e => Except.error e
  | none => Except.ok (Json.arr [])

/-- The HTTP transport with response decoding:
`httpx.post(url, json=payload, headers=headers)` followed by
`raise_for_status()` and `.json()`.  An `Except.error` is any raised
transport exception (network error, timeout, non-2xx status, undecodable
body) with its text. -/
abbrev Net := Json → Json → Json → Except String Json

/-- Build request headers from a server config:
`server_config.get("headers", \x7b\x7d)` followed by the dict
comprehension substituting environment variables in each value.
`.get` on a non-dict config raises `AttributeError`; `.items()` on a
non-dict headers value raises `AttributeError`; `re.sub` on a non-string
header value raises `TypeError`.  All of these are outside the `try`
blocks and propagate. -/
def buildHeaders (env : EnvMap) (server_config : Json) : Except String Json :=
  match dictGet server_config "headers" (Json.obj []) with
  | Except.error e => Except.error e
  | Except.ok headers =>
    match headers with
    | Json.obj kvs =>
      match kvs.mapM (fun kv =>
          match kv.2 with
          | Json.str s => some (kv.1, Json.str (substitute_env_vars env s))
          | _ => none) with
      | some kvs2 => Except.ok (Json.obj kvs2)
      | none => Except.error "TypeError: expected string or bytes-like object"
    | _ => Except.error "AttributeError: object has no attribute items"

/-- The JSON-RPC `tools/list` request body. -/
def listPayload : Json :=
  Json.obj [("jsonrpc", Json.str "2.0"), ("method", Json.str "tools/list"),
    ("id", Json.num 1)]

/-- The JSON-RPC `tools/call` request body. -/
def callPayload (tool_name : Json) (arguments : Json) : Json :=
  Json.obj [("jsonrpc", Json.str "2.0"), ("method", Json.str "tools/call"),
    ("params", Json.obj [("name", tool_name), ("arguments", arguments)]),
    ("id", Json.num 1)]

/-- The `try`-block body of `discover_mcp_tools` after the response is
decoded: the `result.tools` check (Python `in` semantics), the two
logging f-strings (whose `len(tools)` and `server_config["name"]`
accesses can raise inside the `try`), and the returned value. -/
def discoverBody (server_config : Json) (result : Json) : Except String Json := do
  let hasR ← pyInStr "result" result
  let cond ← if hasR then do
      let res ← getItem result "result"
      pyInStr "tools" res
    else pure false
  if cond then do
    let res ← getItem result "result"
    let tools ← getItem res "tools"
    let _ ← pyLenE tools
    let _ ← getItem server_config "name"
    pure tools
  else do
    let _ ← getItem server_config "name"
    pure (Json.arr [])

/-- `discover_mcp_tools`: read `url` and substituted headers from the
config (uncaught exceptions possible there), post the `tools/list`
request, and run the body.  An exception inside the `try` reaches the
`except` handler, whose logging f-string itself indexes
`server_config["name"]`: a `KeyError` raised there propagates out of
the function; otherwise the handler returns `[]`. -/
def discover_mcp_tools (env : EnvMap) (server_config : Json) (net : Net) :
    Except String Json := do
  let url ← getItem server_config "url"
  let headers ← buildHeaders env server_config
  match net url headers listPayload >>= discoverBody server_config with
  | Except.ok tools => pure tools
  | Except.error _ => do
    let _ ← getItem server_config "name"
    pure (Json.arr [])

/-- The element list taken by the `texts` comprehension in
`call_mcp_tool`: only dict elements pass the `isinstance(c, dict)`
filter, and each contributes `c.get("text", str(c))`. -/
def contentTexts (cs : List Json) : List Json :=
  cs.filterMap (fun c =>
    match c with
    | Json.obj kvs => some ((dictLookup kvs "text").getD (Json.str (pyStr c)))
    | _ => none)

/-- Python `"\n".join(texts)`: `TypeError` when an element is not a `str`. -/
def joinTexts (texts : List Json) : Except String String :=
  match texts.mapM (fun t => match t with | Json.str s => some s | _ => none) with
  | some ss => Except.ok (String.intercalate "\n" ss)
  | none => Except.error "TypeError: sequence item: expected str instance"

/-- The `try`-block body of `call_mcp_tool` after the response is
decoded: the `result` / `error` / fallback normalization. -/
def callBody (result : Json) : Except String String := do
  let hasR ← pyInStr "result" result
  if hasR then do
    let res ← getItem result "result"
    let content ← dictGet res "content" (Json.arr [])
    match content with
    | Json.arr cs =>
      let texts := contentTexts cs
      if texts.isEmpty then pure (pyStr content)
      else joinTexts texts
    | _ => pure (pyStr content)
  else do
    let hasE ← pyInStr "error" result
    if hasE then do
      let err ← getItem result "error"
      let msg ← dictGet err "message" (Json.str "Unknown error")
      pure ("Error: " ++ pyStr msg)
    else pure (pyStr result)

/-- `call_mcp_tool`: read `url` and substituted headers from the config
(uncaught exceptions possible there), post the `tools/call` request, and
normalize; any exception inside the `try` yields
`"Error calling tool: " ++ e`. -/
def call_mcp_tool (env : EnvMap) (server_config : Json) (tool_name : Json)
    (arguments : Json) (net : Net) : Except String String := do
  let url ← getItem server_config "url"
  let headers ← buildHeaders env server_config
  pure (match net url headers (callPayload tool_name arguments) >>= callBody with
    | Except.ok s => s
    | Except.error e => "Error calling tool: " ++ e)

/-- The state of an `MCPClientTool` instance after `__init__`. -/
structure MCPClientTool where
  server_config : Json
  tool_definition : Json
  _name : String
  _description : Json
  _parameters : Json

/-- `MCPClientTool.__init__`: store the config and definition, derive
`_name` from the f-string over `server_config["name"]` and
`tool_definition["name"]` (a `KeyError` when either is missing; the
f-string applies `str()` to non-string values), and default
`_description` / `_parameters` via `.get`. -/
def MCPClientTool.init (server_config : Json) (tool_definition : Json) :
    Except String MCPClientTool := do
  let sname ← getItem server_config "name"
  let tname ← getItem tool_definition "name"
  let desc ← dictGet tool_definition "description" (Json.str "")
  let params ← dictGet tool_definition "inputSchema" (Json.obj [])
  pure ⟨server_config, tool_definition, pyStr sname ++ "_" ++ pyStr tname,
    desc, params⟩

/-- `MCPClientTool.get_name`. -/
def MCPClientTool.get_name (t : MCPClientTool) : String := t._name

/-- `MCPClientTool.get_tool_definition`: the OpenAI function format. -/
def MCPClientTool.get_tool_definition (t : MCPClientTool) : Json :=
  Json.obj [("type", Json.str "function"),
    ("function", Json.obj [("name", Json.str t._name),
      ("description", t._description), ("parameters", t._parameters)])]

/-- A pending tool call on a message (framework type): `call_id` and an
argument payload that is either a raw string or an already-decoded value. -/
structure PyToolCall where
  call_id : String
  arguments : Json

/-- A conversation message (framework type): only its `tool_calls` field
is consumed by the wrapper. -/
structure CompletionMessage where
  tool_calls : List PyToolCall

/-- The framework's tool response shape. -/
structure ToolResponse where
  call_id : String
  tool_name : String
  content : String
  metadata : List (String × Json)

/-- `MCPClientTool.run`: diagnostic responses for an empty message list
or a last message without tool calls; otherwise decode the first tool
call's arguments (a string payload is JSON-decoded, with `\x7b\x7d` on
decode failure), invoke the tool under its unprefixed name, and wrap the
resulting string, tagging metadata with the server name. -/
def MCPClientTool.run (t : MCPClientTool) (env : EnvMap) (net : Net)
    (messages : List CompletionMessage) : Except String ToolResponse :=
  match messages.getLast? with
  | none => Except.ok ⟨"unknown", t._name, "No messages provided", []⟩
  | some last_message =>
    match last_message.tool_calls with
    | [] => Except.ok ⟨"unknown", t._name, "No tool calls in message", []⟩
    | tool_call :: _ => do
      let arguments :=
        match tool_call.arguments with
        | Json.str s => (jsonLoads s).getD (Json.obj [])
        | a => a
      let tname ← getItem t.tool_definition "name"
      let result ← call_mcp_tool env t.server_config tname arguments net
      let sname ← getItem t.server_config "name"
      pure ⟨tool_call.call_id, t._name, result, [("mcp_server", sname)]⟩

/-- `MCPClientTool.async_run`: just calls the synchronous `run`. -/
def MCPClientTool.async_run (t : MCPClientTool) (env : EnvMap) (net : Net)
    (messages : List CompletionMessage) : Except String ToolResponse :=
  t.run env net messages

/-- Body of the inner loop of `create_mcp_client_tools` for one
discovered tool definition: read its defaulted name, apply the whitelist
filter (`continue` becomes `none`), or construct the wrapper. -/
def processTool (server_config : Json) (tool_whitelist : Json)
    (tool_def : Json) : Except String (Option MCPClientTool) := do
  let tool_name ← dictGet tool_def "name" (Json.str "")
  if pyTruthy tool_whitelist then do
    let mem ← pyInVal tool_name tool_whitelist
    if !mem then pure none
    else do
      let t ← MCPClientTool.init server_config tool_def
      pure (some t)
  else do
    let t ← MCPClientTool.init server_config tool_def
    pure (some t)

/-- Body of the outer loop of `create_mcp_client_tools` for one server:
defaulted name and whitelist, discovery, then the inner loop over the
iterated discovery result. -/
def processServer (env : EnvMap) (net : Net) (server_config : Json) :
    Except String (List MCPClientTool) := do
  let _ ← dictGet server_config "name" (Json.str "unknown")
  let tool_whitelist ← dictGet server_config "tools" (Json.arr [])
  let mcp_tools ← discover_mcp_tools env server_config net
  let tool_defs ← pyIter mcp_tools
  let opts ← tool_defs.mapM (processTool server_config tool_whitelist)
  pure (opts.filterMap id)

/-- `create_mcp_client_tools`: load the config, iterate it, process each
server in order, and concatenate the registered wrappers in order. -/
def create_mcp_client_tools (env : EnvMap) (net : Net) :
    Except String (List MCPClientTool) := do
  let config ← load_mcp_config env
  let servers ← pyIter config
  let lists ← servers.mapM (processServer env net)
  pure lists.flatten

/-- The scanner of `substChars` matches somewhere in the input: some
position starts a full `\$\x7b\w+\x7d` match. -/
def hasPat : List Char → Bool
  | [] => false
  | c :: rest => (c = '$' && (matchBraceName rest).isSome) || hasPat rest

theorem dictLookup_isSome_of_any {kvs : List (String × Json)} {key : String} :
    (kvs.any (fun kv => kv.1 == key)) = (dictLookup kvs key).isSome := by
  induction kvs with
  | nil => rfl
  | cons kv rest ih =>
    by_cases h : kv.1 = key
    · simp [dictLookup, List.any_cons, h]
    · simp [dictLookup, List.any_cons, h, ih]

/-- C6: `load_mcp_config` returns an empty sequence, without raising,
both when `MCP_SERVERS_JSON` is unset (default `"[]"`) and when the
substituted string is malformed JSON; the parse error is non-fatal and
callers proceed with zero servers. -/
theorem C6_load_config_empty_and_malformed (env : EnvMap) :
    (env "MCP_SERVERS_JSON" = none → load_mcp_config env = Except.ok (Json.arr [])) ∧
    (∀ s : String, env "MCP_SERVERS_JSON" = some s →
      jsonLoads (substitute_env_vars env s) = none →
      load_mcp_config env = Except.ok (Json.arr [])) := by
  constructor
  · intro h
    unfold load_mcp_config
    rw [h]
    rfl
  · intro s hs hparse
    unfold load_mcp_config
    rw [hs]
    simp only [Option.getD_some]
    rw [hparse]

/-- Witness for C6: the all-unset environment, and an environment whose
`MCP_SERVERS_JSON` is not JSON, both yield zero servers. -/
theorem C6_witness :
    load_mcp_config (fun _ => none) = Except.ok (Json.arr []) ∧
    load_mcp_config (fun v => if v = "MCP_SERVERS_JSON" then some "not json" else none)
      = Except.ok (Json.arr []) :=
  ⟨(C6_load_config_empty_and_malformed (fun _ => none)).1 rfl,
   (C6_load_config_empty_and_malformed
      (fun v => if v = "MCP_SERVERS_JSON" then some "not json" else none)).2
     "not json" rfl (by rfl)⟩

/-- C8: `MCPClientTool.async_run` returns exactly the result of the
synchronous `MCPClientTool.run` on every message list — it performs the
same synchronous work with no internal concurrency. -/
theorem C8_async_run_eq_run (t : MCPClientTool) (env : EnvMap) (net : Net)
    (messages : List CompletionMessage) :
    t.async_run env net messages = t.run env net messages := rfl

/-- C10: `load_mcp_config` catches only JSON decode errors: a valid
JSON object is returned as-is with no validation, and a valid JSON
number raises `TypeError` at the `len(config)` logging step instead of
returning an empty sequence. -/
theorem C10_load_config_no_validation (env : EnvMap) (s : String)
    (hs : env "MCP_SERVERS_JSON" = some s) :
    (∀ kvs, jsonLoads (substitute_env_vars env s) = some (Json.obj kvs) →
      load_mcp_config env = Except.ok (Json.obj kvs)) ∧
    (∀ n, jsonLoads (substitute_env_vars env s) = some (Json.num n) →
      load_mcp_config env = Except.error "TypeError: object has no len") := by
  constructor
  · intro kvs hparse
    unfold load_mcp_config
    rw [hs]
    simp only [Option.getD_some]
    rw [hparse]
    rfl
  · intro n hparse
    unfold load_mcp_config
    rw [hs]
    simp only [Option.getD_some]
    rw [hparse]
    rfl

/-- Witness for C10: `"\x7b\x7d"` comes back as the JSON object itself
(not an empty list), and `"5"` raises `TypeError`. -/
theorem C10_witness :
    load_mcp_config (fun v => if v = "MCP_SERVERS_JSON" then some "\x7b\x7d" else none)
      = Except.ok (Json.obj []) ∧
    load_mcp_config (fun v => if v = "MCP_SERVERS_JSON" then some "5" else none)
      = Except.error "TypeError: object has no len" :=
  ⟨(C10_load_config_no_validation
      (fun v => if v = "MCP_SERVERS_JSON" then some "\x7b\x7d" else none) "\x7b\x7d"
      rfl).1 [] (by rfl),
   (C10_load_config_no_validation
      (fun v => if v = "MCP_SERVERS_JSON" then some "5" else none) "5" rfl).2 5 (by rfl)⟩

theorem substCharsF_fuel {env : EnvMap} :
    ∀ (fuel1 fuel2 : Nat) (cs : List Char), cs.length ≤ fuel1 → cs.length ≤ fuel2 →
    substCharsF env fuel1 cs = substCharsF env fuel2 cs := by
  intro fuel1
  induction fuel1 with
  | zero =>
    intro fuel2 cs h1 _
    have hcs : cs = [] := List.length_eq_zero.mp (Nat.le_zero.mp h1)
    subst hcs
    cases fuel2 <;> rfl
  | succ f ih =>
    intro fuel2 cs h1 h2
    cases cs with
    | nil => cases fuel2 <;> rfl
    | cons c rest =>
      cases fuel2 with
      | zero => simp at h2
      | succ f2 =>
        simp only [substCharsF]
        simp only [List.length_cons] at h1 h2
        by_cases hc : c = '$'
        · rw [if_pos hc, if_pos hc]
          cases hm : matchBraceName rest with
          | some p =>
            obtain ⟨name, rest2⟩ := p
            have hlt := matchBraceName_length hm
            exact congrArg _ (ih f2 rest2 (by omega) (by omega))
          | none =>
            exact congrArg _ (ih f2 rest (by omega) (by omega))
        · rw [if_neg hc, if_neg hc]
          exact congrArg _ (ih f2 rest (by omega) (by omega))

theorem substCharsF_id {env : EnvMap} :
    ∀ (fuel : Nat) (cs : List Char), cs.length ≤ fuel → hasPat cs = false →
    substCharsF env fuel cs = cs := by
  intro fuel
  induction fuel with
  | zero =>
    intro cs h1 _
    have hcs : cs = [] := List.length_eq_zero.mp (Nat.le_zero.mp h1)
    subst hcs
    rfl
  | succ f ih =>
    intro cs h1 h2
    cases cs with
    | nil => rfl
    | cons c rest =>
      simp only [hasPat, Bool.or_eq_false_iff, Bool.and_eq_false_iff] at h2
      simp only [List.length_cons] at h1
      simp only [substCharsF]
      by_cases hc : c = '$'
      · rw [if_pos hc]
        cases hm : matchBraceName rest with
        | some p =>
          exfalso
          rcases h2.1 with h3 | h3
          · exact absurd h3 (by simp [hc])
          · rw [hm] at h3; simp at h3
        | none => exact congrArg _ (ih rest (by omega) h2.2)
      · rw [if_neg hc]
        exact congrArg _ (ih rest (by omega) h2.2)

theorem takeWhile_dropWhile_append {p : Char → Bool} :
    ∀ (l : List Char) (d : Char) (rest : List Char), (∀ c ∈ l, p c = true) →
    p d = false →
    (l ++ d :: rest).takeWhile p = l ∧ (l ++ d :: rest).dropWhile p = d :: rest := by
  intro l
  induction l with
  | nil =>
    intro d rest _ hd
    simp [List.takeWhile, List.dropWhile, hd]
  | cons c l ih =>
    intro d rest hl hd
    have hc : p c = true := hl c (by simp)
    have := ih d rest (fun x hx => hl x (by simp [hx])) hd
    simp [List.takeWhile, List.dropWhile, hc, this.1, this.2]

theorem isWordChar_cbChar : isWordChar cbChar = false := by decide

theorem matchBraceName_built (name suf : List Char) (h1 : name ≠ [])
    (h2 : ∀ c ∈ name, isWordChar c = true) :
    matchBraceName (obChar :: (name ++ cbChar :: suf)) = some (String.mk name, suf) := by
  have hts := takeWhile_dropWhile_append name cbChar suf h2 isWordChar_cbChar
  simp only [matchBraceName, obChar, if_pos rfl, hts.1, hts.2]
  have hcb : (cbChar = Char.ofNat 125 && !name.isEmpty) = true := by
    simp [cbChar, List.isEmpty_iff, h1]
  rw [if_pos hcb]
  simp

theorem substCharsF_append_nodollar {env : EnvMap} :
    ∀ (pre : List Char) (fuel : Nat) (rest : List Char), (∀ c ∈ pre, c ≠ '$') →
    pre.length + rest.length ≤ fuel →
    substCharsF env fuel (pre ++ rest) =
      pre ++ substCharsF env (fuel - pre.length) rest := by
  intro pre
  induction pre with
  | nil => intro fuel rest _ _; simp
  | cons c pre ih =>
    intro fuel rest hpre hlen
    cases fuel with
    | zero => simp at hlen
    | succ f =>
      have hc : ¬(c = '$') := hpre c (by simp)
      simp only [List.cons_append, substCharsF, if_neg hc]
      simp only [List.length_cons] at hlen ⊢
      rw [ih f rest (fun x hx => hpre x (by simp [hx])) (by omega)]
      simp [Nat.succ_sub_one]

theorem substCharsF_dollar_match {env : EnvMap} {rest rest2 : List Char}
    {nm : String} {fuel : Nat} (hm : matchBraceName rest = some (nm, rest2)) :
    substCharsF env (fuel + 1) ('$' :: rest) =
      ((env nm).getD "").data ++ substCharsF env fuel rest2 := by
  simp [substCharsF, hm]

/-- C7: `substitute_env_vars` replaces every occurrence of
`$\x7bIDENTIFIER\x7d` (identifier = word characters) with the value of
that environment variable, or the empty string when unset, leaving
non-matching text untouched; in particular it is the identity on every
string containing no such pattern.  The second clause expresses one
replacement step at an arbitrary position: any dollar-free prefix is
untouched, the pattern itself is replaced, and substitution continues on
the arbitrary remainder. -/
theorem C7_env_substitution (env : EnvMap) :
    (∀ s : String, hasPat s.data = false → substitute_env_vars env s = s) ∧
    (∀ (pre name suf : String), (∀ c ∈ pre.data, c ≠ '$') → name.data ≠ [] →
      (∀ c ∈ name.data, isWordChar c = true) →
      substitute_env_vars env
        (pre ++ String.mk ('$' :: obChar :: (name.data ++ [cbChar])) ++ suf) =
      pre ++ ((env name).getD "") ++ substitute_env_vars env suf) := by
  constructor
  · intro s h
    unfold substitute_env_vars
    rw [substCharsF_id s.data.length s.data (Nat.le_refl _) h]
  · intro pre name suf hpre hne hword
    unfold substitute_env_vars
    apply String.ext
    have hdata : (pre ++ String.mk ('$' :: obChar :: (name.data ++ [cbChar])) ++ suf).data
        = pre.data ++ ('$' :: obChar :: (name.data ++ cbChar :: suf.data)) := by
      simp [String.data_append]
    rw [hdata]
    have hlen : pre.data.length +
        ('$' :: obChar :: (name.data ++ cbChar :: suf.data)).length ≤
        (pre.data ++ ('$' :: obChar :: (name.data ++ cbChar :: suf.data))).length := by
      simp
    rw [substCharsF_append_nodollar pre.data _ _ hpre hlen]
    have hfuel : (pre.data ++ ('$' :: obChar :: (name.data ++ cbChar :: suf.data))).length
        - pre.data.length
        = (obChar :: (name.data ++ cbChar :: suf.data)).length + 1 := by
      simp
    rw [hfuel]
    have hm : matchBraceName (obChar :: (name.data ++ cbChar :: suf.data))
        = some (name, suf.data) := by
      have := matchBraceName_built name.data suf.data hne hword
      simpa using this
    rw [substCharsF_dollar_match hm]
    rw [substCharsF_fuel (obChar :: (name.data ++ cbChar :: suf.data)).length
      suf.data.length suf.data (by simp; omega) (Nat.le_refl _)]
    simp [String.data_append, substitute_env_vars]

/-- Witness for C7: `"plain"` is unchanged, and `"a$\x7bHOME\x7db"`
becomes `"a/hb"` under an environment where `HOME=/h`. -/
theorem C7_witness :
    substitute_env_vars (fun v => if v = "HOME" then some "/h" else none) "plain"
      = "plain" ∧
    substitute_env_vars (fun v => if v = "HOME" then some "/h" else none)
      ("a" ++ String.mk ('$' :: obChar :: ("HOME".data ++ [cbChar])) ++ "b")
      = "a/hb" :=
  ⟨(C7_env_substitution (fun v => if v = "HOME" then some "/h" else none)).1
      "plain" (by rfl),
   ((C7_env_substitution (fun v => if v = "HOME" then some "/h" else none)).2
      "a" "HOME" "b" (by decide) (by decide) (by decide)).trans (by rfl)⟩

theorem getItem_obj_some {kvs : List (String × Json)} {k : String} {v : Json}
    (h : dictLookup kvs k = some v) : getItem (Json.obj kvs) k = Except.ok v := by
  simp [getItem, h]

theorem pyInStr_obj (k : String) (kvs : List (String × Json)) :
    pyInStr k (Json.obj kvs) = Except.ok (dictLookup kvs k).isSome := by
  simp [pyInStr, dictLookup_isSome_of_any]

/-- The response shape on which discovery succeeds without an internal
exception: a JSON object whose `result` is an object with a `tools` key. -/
def hasResultTools : Json → Bool
  | Json.obj kvs =>
    match dictLookup kvs "result" with
    | some (Json.obj rkvs) => (dictLookup rkvs "tools").isSome
    | _ => false
  | _ => false

theorem discoverBody_result_empty (cfg resp : Json)
    (h : hasResultTools resp = false) :
    (match discoverBody cfg resp with
      | Except.ok t => t
      | Except.error _ => Json.arr []) = Json.arr [] := by
  cases resp with
  | null => rfl
  | bool b => rfl
  | num n => rfl
  | str s =>
    cases hb : charSublist "result".data s.data with
    | true =>
      simp [discoverBody, pyInStr, getItem, hb, dictLookup_isSome_of_any, Bind.bind, Except.bind, Pure.pure, Except.pure]
    | false =>
      cases hg : getItem cfg "name" with
      | ok v => simp [discoverBody, pyInStr, hb, hg, dictLookup_isSome_of_any, Bind.bind, Except.bind, Pure.pure, Except.pure]
      | error e => simp [discoverBody, pyInStr, hb, hg, dictLookup_isSome_of_any, Bind.bind, Except.bind, Pure.pure, Except.pure]
  | arr xs =>
    cases hb : xs.any (fun x => jsonEqB x (Json.str "result")) with
    | true =>
      simp [discoverBody, pyInStr, getItem, hb, dictLookup_isSome_of_any, Bind.bind, Except.bind, Pure.pure, Except.pure]
    | false =>
      cases hg : getItem cfg "name" with
      | ok v => simp [discoverBody, pyInStr, hb, hg, dictLookup_isSome_of_any, Bind.bind, Except.bind, Pure.pure, Except.pure]
      | error e => simp [discoverBody, pyInStr, hb, hg, dictLookup_isSome_of_any, Bind.bind, Except.bind, Pure.pure, Except.pure]
  | obj kvs =>
    cases hl : dictLookup kvs "result" with
    | none =>
      cases hg : getItem cfg "name" with
      | ok v =>
        simp [discoverBody, pyInStr_obj, hl, hg, dictLookup_isSome_of_any, Bind.bind, Except.bind, Pure.pure, Except.pure]
      | error e =>
        simp [discoverBody, pyInStr_obj, hl, hg, dictLookup_isSome_of_any, Bind.bind, Except.bind, Pure.pure, Except.pure]
    | some rv =>
      have hgi : getItem (Json.obj kvs) "result" = Except.ok rv := getItem_obj_some hl
      cases rv with
      | null =>
        simp [discoverBody, pyInStr_obj, pyInStr, hl, hgi, dictLookup_isSome_of_any, Bind.bind, Except.bind, Pure.pure, Except.pure]
      | bool b =>
        simp [discoverBody, pyInStr_obj, pyInStr, hl, hgi, dictLookup_isSome_of_any, Bind.bind, Except.bind, Pure.pure, Except.pure]
      | num n =>
        simp [discoverBody, pyInStr_obj, pyInStr, hl, hgi, dictLookup_isSome_of_any, Bind.bind, Except.bind, Pure.pure, Except.pure]
      | str s =>
        cases hb : charSublist "tools".data s.data with
        | true =>
          simp [discoverBody, pyInStr_obj, pyInStr, getItem, hl, hgi, hb,
            dictLookup_isSome_of_any, Bind.bind, Except.bind, Pure.pure, Except.pure]
        | false =>
          cases hg : getItem cfg "name" with
          | ok v =>
            simp [discoverBody, pyInStr_obj, pyInStr, hl, hgi, hb, hg,
              dictLookup_isSome_of_any, Bind.bind, Except.bind, Pure.pure, Except.pure]
          | error e =>
            simp [discoverBody, pyInStr_obj, pyInStr, hl, hgi, hb, hg,
              dictLookup_isSome_of_any, Bind.bind, Except.bind, Pure.pure, Except.pure]
      | arr ys =>
        cases hb : ys.any (fun x => jsonEqB x (Json.str "tools")) with
        | true =>
          simp [discoverBody, pyInStr_obj, pyInStr, getItem, hl, hgi, hb,
            dictLookup_isSome_of_any, Bind.bind, Except.bind, Pure.pure, Except.pure]
        | false =>
          cases hg : getItem cfg "name" with
          | ok v =>
            simp [discoverBody, pyInStr_obj, pyInStr, hl, hgi, hb, hg,
              dictLookup_isSome_of_any, Bind.bind, Except.bind, Pure.pure, Except.pure]
          | error e =>
            simp [discoverBody, pyInStr_obj, pyInStr, hl, hgi, hb, hg,
              dictLookup_isSome_of_any, Bind.bind, Except.bind, Pure.pure, Except.pure]
      | obj rkvs =>
        have htools : dictLookup rkvs "tools" = none := by
          simp only [hasResultTools, hl] at h
          cases ht : dictLookup rkvs "tools" with
          | none => rfl
          | some t => rw [ht] at h; simp at h
        cases hg : getItem cfg "name" with
        | ok v =>
          simp [discoverBody, pyInStr_obj, hl, hgi, htools, hg,
            dictLookup_isSome_of_any, Bind.bind, Except.bind, Pure.pure, Except.pure]
        | error e =>
          simp [discoverBody, pyInStr_obj, hl, hgi, htools, hg,
            dictLookup_isSome_of_any, Bind.bind, Except.bind, Pure.pure, Except.pure]

/-- C3: for every server descriptor (with name and url present and
well-formed headers, as the ServerConfig data model requires),
`discover_mcp_tools` returns an empty sequence — and never raises —
when the transport raises (non-2xx, network error, timeout,
unreachable) and when the response lacks `result.tools`.  The name
hypothesis is needed because the `except` handler's logging f-string
indexes `server_config["name"]`: a descriptor without a name would
instead raise `KeyError` from the handler. -/
theorem C3_discover_failures (env : EnvMap) (cfg : Json) (net : Net)
    (hurl : ∃ u, getItem cfg "url" = Except.ok u)
    (hname : ∃ nv, getItem cfg "name" = Except.ok nv)
    (hhdr : ∃ hd, buildHeaders env cfg = Except.ok hd) :
    (∀ e : String, (∀ u hd p, net u hd p = Except.error e) →
      discover_mcp_tools env cfg net = Except.ok (Json.arr [])) ∧
    (∀ resp : Json, hasResultTools resp = false →
      (∀ u hd p, net u hd p = Except.ok resp) →
      discover_mcp_tools env cfg net = Except.ok (Json.arr [])) := by
  obtain ⟨u, hu⟩ := hurl
  obtain ⟨nv, hn⟩ := hname
  obtain ⟨hd, hh⟩ := hhdr
  constructor
  · intro e hnet
    simp [discover_mcp_tools, hu, hh, hn, hnet, Bind.bind, Except.bind,
      Pure.pure, Except.pure]
  · intro resp hresp hnet
    have hb := discoverBody_result_empty cfg resp hresp
    cases hdb : discoverBody cfg resp with
    | ok t =>
      rw [hdb] at hb
      simp only [] at hb
      simp [discover_mcp_tools, hu, hh, hn, hnet, hdb, hb, Bind.bind, Except.bind,
        Pure.pure, Except.pure]
    | error e =>
      simp [discover_mcp_tools, hu, hh, hn, hnet, hdb, Bind.bind, Except.bind,
        Pure.pure, Except.pure]

/-- Witness for C3: a concrete server config with a transport failure,
and the same config with a response carrying no `result.tools`, both
discover zero tools. -/
theorem C3_witness :
    discover_mcp_tools (fun _ => none)
      (Json.obj [("name", Json.str "s"), ("url", Json.str "u")])
      (fun _ _ _ => Except.error "connection refused") = Except.ok (Json.arr []) ∧
    discover_mcp_tools (fun _ => none)
      (Json.obj [("name", Json.str "s"), ("url", Json.str "u")])
      (fun _ _ _ => Except.ok (Json.obj [("jsonrpc", Json.str "2.0")]))
      = Except.ok (Json.arr []) :=
  ⟨(C3_discover_failures (fun _ => none)
      (Json.obj [("name", Json.str "s"), ("url", Json.str "u")]) _
      ⟨Json.str "u", rfl⟩ ⟨Json.str "s", rfl⟩ ⟨Json.obj [], rfl⟩).1
      "connection refused" (fun _ _ _ => rfl),
   (C3_discover_failures (fun _ => none)
      (Json.obj [("name", Json.str "s"), ("url", Json.str "u")]) _
      ⟨Json.str "u", rfl⟩ ⟨Json.str "s", rfl⟩ ⟨Json.obj [], rfl⟩).2
      (Json.obj [("jsonrpc", Json.str "2.0")]) (by rfl) (fun _ _ _ => rfl)⟩

/-- The empty environment (no variables set), used by concrete instances. -/
def envNone : EnvMap := fun _ => none

/-- A minimal well-formed server config for concrete instances. -/
def cfgU : Json := Json.obj [("name", Json.str "s"), ("url", Json.str "u")]

/-- A transport returning the same decoded response for every request. -/
def constNet (resp : Json) : Net := fun _ _ _ => Except.ok resp

/-- A `tools/call` response whose `result.content` is the given array. -/
def contentResp (cs : List Json) : Json :=
  Json.obj [("result", Json.obj [("content", Json.arr cs)])]

/-- The extraction rule asserted by claim C1, in the spec's words: join
every element's `text` field with newline separators, falling back to
the element's string form when it has no `text` field; when the joined
text is empty, fall back to the string form of the whole content array. -/
def claimJoinContent (cs : List Json) : String :=
  let texts := cs.map (fun c =>
    match c with
    | Json.obj kvs =>
      match dictLookup kvs "text" with
      | some (Json.str s) => s
      | some v => pyStr v
      | none => pyStr c
    | _ => pyStr c)
  let joined := String.intercalate "\n" texts
  if joined = "" then pyStr (Json.arr cs) else joined

/-- Counterexample to C1: (i) for content `["x"]` the code skips the
non-dict element, leaving `texts` empty, and returns the string form of
the whole array, while the claim joins the element's string form and
returns `"x"`; (ii) for content `[\x7b"text": ""\x7d]` the joined text
is empty but `texts` is not, so the code returns `""` while the claim
falls back to the string form of the array. -/
theorem C1_counterexample :
    (call_mcp_tool envNone cfgU (Json.str "t") (Json.obj [])
        (constNet (contentResp [Json.str "x"]))
      = Except.ok (pyStr (Json.arr [Json.str "x"]))) ∧
    claimJoinContent [Json.str "x"] = "x" ∧
    pyStr (Json.arr [Json.str "x"]) ≠ "x" ∧
    (call_mcp_tool envNone cfgU (Json.str "t") (Json.obj [])
        (constNet (contentResp [Json.obj [("text", Json.str "")]]))
      = Except.ok "") ∧
    claimJoinContent [Json.obj [("text", Json.str "")]]
      = pyStr (Json.arr [Json.obj [("text", Json.str "")]]) ∧
    pyStr (Json.arr [Json.obj [("text", Json.str "")]]) ≠ "" :=
  ⟨rfl, rfl, by decide, rfl, rfl, by decide⟩

theorem joinTexts_strings (texts : List Json)
    (h : ∀ t ∈ texts, ∃ s, t = Json.str s) :
    joinTexts texts = Except.ok (String.intercalate "\n" (texts.map (fun t =>
      match t with | Json.str s => s | _ => ""))) := by
  have key : ∀ (ts : List Json), (∀ t ∈ ts, ∃ s, t = Json.str s) →
      ts.mapM (fun t => match t with | Json.str s => some s | _ => none)
        = some (ts.map (fun t => match t with | Json.str s => s | _ => "")) := by
    intro ts
    induction ts with
    | nil => intro _; rfl
    | cons t ts ih =>
      intro h2
      obtain ⟨s, hs⟩ := h2 t (by simp)
      subst hs
      rw [List.mapM_cons, ih (fun x hx => h2 x (by simp [hx]))]
      rfl
  unfold joinTexts
  rw [key texts h]

/-- The extraction rule that actually holds (amendment of C1): only the
object elements of the content array are considered, each contributing
its `text` field, or the object's string form when `text` is absent;
non-object elements are skipped.  When no object element exists, the
string form of the whole content array is returned; otherwise the
newline join of the contributions — even when that join is empty. -/
def claimAmendedJoin (cs : List Json) : String :=
  let picked := cs.filterMap (fun c =>
    match c with
    | Json.obj kvs => some ((dictLookup kvs "text").getD (Json.str (pyStr c)))
    | _ => none)
  if picked.isEmpty then pyStr (Json.arr cs)
  else String.intercalate "\n" (picked.map (fun t =>
    match t with
    | Json.str s => s
    | _ => ""))

/-- C1 (amended): for every invocation response whose `result.content`
is an array all of whose object elements carry string `text` values
(when present), `call_mcp_tool` returns the newline join over the
*object* elements only — `text` field, or the object's string form when
`text` is absent — and falls back to the string form of the whole
content array exactly when no object element exists.  The claim's two
examples (`"hi"`, `"a\nb"`) are instances. -/
theorem C1_amended_content_extraction (env : EnvMap) (cfg tool_name args : Json)
    (net : Net) (cs : List Json)
    (hurl : ∃ u, getItem cfg "url" = Except.ok u)
    (hhdr : ∃ hd, buildHeaders env cfg = Except.ok hd)
    (hnet : ∀ u hd p, net u hd p = Except.ok (contentResp cs))
    (htext : ∀ t ∈ contentTexts cs, ∃ s, t = Json.str s) :
    call_mcp_tool env cfg tool_name args net = Except.ok (claimAmendedJoin cs) := by
  obtain ⟨u, hu⟩ := hurl
  obtain ⟨hd, hh⟩ := hhdr
  have hcb : callBody (contentResp cs)
      = (if (contentTexts cs).isEmpty then Except.ok (pyStr (Json.arr cs))
         else joinTexts (contentTexts cs)) := rfl
  have hca : claimAmendedJoin cs
      = (if (contentTexts cs).isEmpty then pyStr (Json.arr cs)
         else String.intercalate "\n" ((contentTexts cs).map (fun t =>
           match t with | Json.str s => s | _ => ""))) := rfl
  have hbody : callBody (contentResp cs) = Except.ok (claimAmendedJoin cs) := by
    rw [hcb, hca]
    cases hemp : (contentTexts cs).isEmpty with
    | true => simp
    | false => simp [joinTexts_strings _ htext]
  simp only [call_mcp_tool, hu, hh, hnet, Bind.bind, Except.bind,
    Pure.pure, Except.pure, hbody]

/-- Witness for C1 (amended): the claim's two examples, derived from the
amended theorem. -/
theorem C1_amended_witness :
    call_mcp_tool envNone cfgU (Json.str "t") (Json.obj [])
      (constNet (contentResp [Json.obj [("text", Json.str "hi")]]))
      = Except.ok "hi" ∧
    call_mcp_tool envNone cfgU (Json.str "t") (Json.obj [])
      (constNet (contentResp [Json.obj [("text", Json.str "a")],
        Json.obj [("text", Json.str "b")]]))
      = Except.ok "a\nb" :=
  ⟨(C1_amended_content_extraction envNone cfgU (Json.str "t") (Json.obj []) _
      [Json.obj [("text", Json.str "hi")]] ⟨Json.str "u", rfl⟩ ⟨Json.obj [], rfl⟩
      (fun _ _ _ => rfl)
      (by intro t ht
          simp [contentTexts, dictLookup] at ht
          exact ⟨"hi", ht⟩)).trans (by rfl),
   (C1_amended_content_extraction envNone cfgU (Json.str "t") (Json.obj []) _
      [Json.obj [("text", Json.str "a")], Json.obj [("text", Json.str "b")]]
      ⟨Json.str "u", rfl⟩ ⟨Json.obj [], rfl⟩ (fun _ _ _ => rfl)
      (by intro t ht
          simp [contentTexts, dictLookup] at ht
          rcases ht with h | h
          · exact ⟨"a", h⟩
          · exact ⟨"b", h⟩)).trans (by rfl)⟩

/-- Counterexample to C2: (i) for response `\x7b"error": "boom"\x7d` the
`message` field is absent, so the claim requires
`"Error: Unknown error"`, but `.get` on the non-dict error value raises
`AttributeError` inside the `try` and the code returns the exception
text instead; (ii) for the non-object response `5`, the claim's final
clause requires its string form `"5"`, but the `in` test raises
`TypeError` and the code again returns the exception text. -/
theorem C2_counterexample :
    (call_mcp_tool envNone cfgU (Json.str "t") (Json.obj [])
        (constNet (Json.obj [("error", Json.str "boom")]))
      = Except.ok "Error calling tool: AttributeError: object has no attribute get") ∧
    "Error calling tool: AttributeError: object has no attribute get"
      ≠ "Error: Unknown error" ∧
    (call_mcp_tool envNone cfgU (Json.str "t") (Json.obj [])
        (constNet (Json.num 5))
      = Except.ok "Error calling tool: TypeError: argument is not iterable") ∧
    "Error calling tool: TypeError: argument is not iterable" ≠ pyStr (Json.num 5) :=
  ⟨rfl, by decide, rfl, by decide⟩

theorem callBody_result_only {kvs : List (String × Json)} {rv : Json}
    (h : dictLookup kvs "result" = some rv) :
    callBody (Json.obj kvs) = callBody (Json.obj [("result", rv)]) := by
  simp [callBody, pyInStr_obj, h, getItem_obj_some h, getItem, dictLookup,
    Bind.bind, Except.bind, Pure.pure, Except.pure]

/-- C2 (amended): response normalization of `call_mcp_tool` for object
responses, in priority order: a `result` key selects the result branch
(the output depends only on its value); otherwise an `error` key whose
value is an *object* yields `"Error: "` followed by its `message` value
(string form) or `"Unknown error"` when absent — when the error value is
not an object the `.get` raises inside the handler instead, producing
`"Error calling tool: ..."` (see the counterexample); with neither key
the string form of the whole response is returned; and a transport
exception is returned as `"Error calling tool: "` plus the exception
text, never raised. -/
theorem C2_amended_normalization (env : EnvMap) (cfg tool_name args : Json)
    (hurl : ∃ u, getItem cfg "url" = Except.ok u)
    (hhdr : ∃ hd, buildHeaders env cfg = Except.ok hd) :
    (∀ (kvs : List (String × Json)) (rv : Json) (net1 net2 : Net),
      dictLookup kvs "result" = some rv →
      (∀ u hd p, net1 u hd p = Except.ok (Json.obj kvs)) →
      (∀ u hd p, net2 u hd p = Except.ok (Json.obj [("result", rv)])) →
      call_mcp_tool env cfg tool_name args net1
        = call_mcp_tool env cfg tool_name args net2) ∧
    (∀ (kvs ekvs : List (String × Json)) (net : Net),
      dictLookup kvs "result" = none →
      dictLookup kvs "error" = some (Json.obj ekvs) →
      (∀ u hd p, net u hd p = Except.ok (Json.obj kvs)) →
      call_mcp_tool env cfg tool_name args net = Except.ok
        ("Error: " ++ pyStr ((dictLookup ekvs "message").getD
          (Json.str "Unknown error")))) ∧
    (∀ (kvs : List (String × Json)) (net : Net),
      dictLookup kvs "result" = none →
      dictLookup kvs "error" = none →
      (∀ u hd p, net u hd p = Except.ok (Json.obj kvs)) →
      call_mcp_tool env cfg tool_name args net
        = Except.ok (pyStr (Json.obj kvs))) ∧
    (∀ (e : String) (net : Net),
      (∀ u hd p, net u hd p = Except.error e) →
      call_mcp_tool env cfg tool_name args net
        = Except.ok ("Error calling tool: " ++ e)) := by
  obtain ⟨u, hu⟩ := hurl
  obtain ⟨hd, hh⟩ := hhdr
  refine ⟨?_, ?_, ?_, ?_⟩
  · intro kvs rv net1 net2 hres hnet1 hnet2
    simp only [call_mcp_tool, hu, hh, hnet1, hnet2, Bind.bind, Except.bind,
      Pure.pure, Except.pure, callBody_result_only hres]
  · intro kvs ekvs net hres herr hnet
    have hcb : callBody (Json.obj kvs) = Except.ok
        ("Error: " ++ pyStr ((dictLookup ekvs "message").getD
          (Json.str "Unknown error"))) := by
      simp [callBody, pyInStr_obj, hres, herr, getItem_obj_some herr, dictGet,
        Bind.bind, Except.bind, Pure.pure, Except.pure]
    simp only [call_mcp_tool, hu, hh, hnet, Bind.bind, Except.bind,
      Pure.pure, Except.pure, hcb]
  · intro kvs net hres herr hnet
    have hcb : callBody (Json.obj kvs) = Except.ok (pyStr (Json.obj kvs)) := by
      simp [callBody, pyInStr_obj, hres, herr,
        Bind.bind, Except.bind, Pure.pure, Except.pure]
    simp only [call_mcp_tool, hu, hh, hnet, Bind.bind, Except.bind,
      Pure.pure, Except.pure, hcb]
  · intro e net hnet
    simp [call_mcp_tool, hu, hh, hnet, Bind.bind, Except.bind,
      Pure.pure, Except.pure]

/-- Witness for C2 (amended): the spec's `\x7b"error":
\x7b"message": "bad"\x7d\x7d → "Error: bad"` example, the neither-key
fallback, and a transport failure, each derived from the amended
theorem. -/
theorem C2_amended_witness :
    call_mcp_tool envNone cfgU (Json.str "t") (Json.obj [])
      (constNet (Json.obj [("error", Json.obj [("message", Json.str "bad")])]))
      = Except.ok "Error: bad" ∧
    call_mcp_tool envNone cfgU (Json.str "t") (Json.obj [])
      (constNet (Json.obj [("jsonrpc", Json.str "2.0")]))
      = Except.ok (pyStr (Json.obj [("jsonrpc", Json.str "2.0")])) ∧
    call_mcp_tool envNone cfgU (Json.str "t") (Json.obj [])
      (fun _ _ _ => Except.error "timeout")
      = Except.ok "Error calling tool: timeout" :=
  ⟨((C2_amended_normalization envNone cfgU (Json.str "t") (Json.obj [])
      ⟨Json.str "u", rfl⟩ ⟨Json.obj [], rfl⟩).2.1
      [("error", Json.obj [("message", Json.str "bad")])]
      [("message", Json.str "bad")] _ rfl rfl (fun _ _ _ => rfl)).trans (by rfl),
   (C2_amended_normalization envNone cfgU (Json.str "t") (Json.obj [])
      ⟨Json.str "u", rfl⟩ ⟨Json.obj [], rfl⟩).2.2.1
      [("jsonrpc", Json.str "2.0")] _ rfl rfl (fun _ _ _ => rfl),
   (C2_amended_normalization envNone cfgU (Json.str "t") (Json.obj [])
      ⟨Json.str "u", rfl⟩ ⟨Json.obj [], rfl⟩).2.2.2 "timeout" _ (fun _ _ _ => rfl)⟩

/-- The argument-decoding rule stated by C5: a string payload is
JSON-decoded, an empty argument map replacing it on decode failure;
anything else is passed through. -/
def decodeArgs (a : Json) : Json :=
  match a with
  | Json.str s => (jsonLoads s).getD (Json.obj [])
  | a => a

/-- C5: `MCPClientTool.run` returns a diagnostic response without
raising when the message list is empty or the last message carries no
tool call; otherwise it takes the first tool call, decodes its argument
payload per `decodeArgs`, invokes the tool under the unprefixed name
from the tool definition, and wraps the resulting string with metadata
carrying the originating server name. -/
theorem C5_run_contract (t : MCPClientTool) (env : EnvMap) (net : Net) :
    (t.run env net [] = Except.ok ⟨"unknown", t._name, "No messages provided", []⟩) ∧
    (∀ (msgs : List CompletionMessage) (m : CompletionMessage),
      msgs.getLast? = some m → m.tool_calls = [] →
      t.run env net msgs
        = Except.ok ⟨"unknown", t._name, "No tool calls in message", []⟩) ∧
    (∀ (msgs : List CompletionMessage) (m : CompletionMessage) (tc : PyToolCall)
      (rest : List PyToolCall) (nv sv : Json) (r : String),
      msgs.getLast? = some m → m.tool_calls = tc :: rest →
      getItem t.tool_definition "name" = Except.ok nv →
      getItem t.server_config "name" = Except.ok sv →
      call_mcp_tool env t.server_config nv (decodeArgs tc.arguments) net
        = Except.ok r →
      t.run env net msgs
        = Except.ok ⟨tc.call_id, t._name, r, [("mcp_server", sv)]⟩) := by
  refine ⟨rfl, ?_, ?_⟩
  · intro msgs m hlast htc
    simp [MCPClientTool.run, hlast, htc]
  · intro msgs m tc rest nv sv r hlast htc hnv hsv hcall
    simp only [decodeArgs] at hcall
    simp only [MCPClientTool.run, hlast, htc, hnv, hsv, hcall,
      Bind.bind, Except.bind, Pure.pure, Except.pure]

/-- A concrete wrapper instance for witnesses: server `"s"`, tool `"read"`. -/
def toolW : MCPClientTool :=
  ⟨cfgU, Json.obj [("name", Json.str "read")], "s_read", Json.str "", Json.obj []⟩

/-- Witness for C5: the two diagnostics and a full invocation whose
string argument payload is invalid JSON (decoded to `\x7b\x7d`). -/
theorem C5_witness :
    toolW.run envNone (constNet (contentResp [Json.obj [("text", Json.str "hi")]]))
      [] = Except.ok ⟨"unknown", "s_read", "No messages provided", []⟩ ∧
    toolW.run envNone (constNet (contentResp [Json.obj [("text", Json.str "hi")]]))
      [⟨[]⟩] = Except.ok ⟨"unknown", "s_read", "No tool calls in message", []⟩ ∧
    toolW.run envNone (constNet (contentResp [Json.obj [("text", Json.str "hi")]]))
      [⟨[⟨"c1", Json.str "not json"⟩]⟩]
      = Except.ok ⟨"c1", "s_read", "hi", [("mcp_server", Json.str "s")]⟩ :=
  ⟨(C5_run_contract toolW envNone
      (constNet (contentResp [Json.obj [("text", Json.str "hi")]]))).1,
   (C5_run_contract toolW envNone
      (constNet (contentResp [Json.obj [("text", Json.str "hi")]]))).2.1
      [⟨[]⟩] ⟨[]⟩ rfl rfl,
   (C5_run_contract toolW envNone
      (constNet (contentResp [Json.obj [("text", Json.str "hi")]]))).2.2
      [⟨[⟨"c1", Json.str "not json"⟩]⟩] ⟨[⟨"c1", Json.str "not json"⟩]⟩
      ⟨"c1", Json.str "not json"⟩ [] (Json.str "read") (Json.str "s") "hi"
      rfl rfl rfl rfl (by rfl)⟩

/-- `j[k]` with a default, total (spec-side helper). -/
def jGetD (j : Json) (k : String) (d : Json) : Json :=
  match j with
  | Json.obj kvs => (dictLookup kvs k).getD d
  | _ => d

/-- The defaulted tool name used by the whitelist filter. -/
def toolNameOf (td : Json) : Json := jGetD td "name" (Json.str "")

/-- The server's whitelist entries (empty when absent). -/
def whitelistEntries (cfg : Json) : List Json :=
  match jGetD cfg "tools" (Json.arr []) with
  | Json.arr ws => ws
  | _ => []

/-- The registration rule stated by C4: keep a tool when the whitelist
is empty, or when its name is a member. -/
def specKeep (ws : List Json) (tname : Json) : Bool :=
  ws.isEmpty || ws.any (fun y => jsonEqB y tname)

/-- The wrapper C4 predicts for a kept (server, tool) pair: exposed name
`"\x7bserver.name\x7d_\x7btool.name\x7d"`, description and schema
defaulted from the tool definition. -/
def specWrapper (cfg td : Json) : MCPClientTool :=
  ⟨cfg, td,
   pyStr (jGetD cfg "name" Json.null) ++ "_" ++ pyStr (jGetD td "name" Json.null),
   jGetD td "description" (Json.str ""), jGetD td "inputSchema" (Json.obj [])⟩

/-- The full registry C4 predicts: servers in config order, tools in
discovery order, whitelist-filtered, wrapped. -/
def specRegistry (tds : Json → List Json) (cfgs : List Json) : List MCPClientTool :=
  (cfgs.map (fun cfg => ((tds cfg).filter (fun td =>
     specKeep (whitelistEntries cfg) (toolNameOf td))).map (specWrapper cfg))).flatten

/-- A tool definition the registry builder can always wrap: an object
with a `name` key. -/
def wfToolB (td : Json) : Bool :=
  match td with
  | Json.obj kvs => (dictLookup kvs "name").isSome
  | _ => false

/-- A server config shaped as the ServerConfig data model requires for
registration: an object with a `name`, whose `tools` key, when present,
is an array. -/
def wfServerB (cfg : Json) : Bool :=
  match cfg with
  | Json.obj kvs =>
    (dictLookup kvs "name").isSome &&
    (match dictLookup kvs "tools" with
     | none => true
     | some (Json.arr _) => true
     | some _ => false)
  | _ => false

theorem filterMap_id_map_if {α β : Type} (p : α → Bool) (f : α → β) (l : List α) :
    l.filterMap (fun a => if p a then some (f a) else none)
      = (l.filter p).map f := by
  induction l with
  | nil => rfl
  | cons a l ih =>
    by_cases h : p a <;> simp [List.filter_cons, List.filterMap_cons, h, ih]

theorem mapM_ok_of_forall {α β : Type} (f : α → Except String β) (g : α → β)
    (l : List α) (h : ∀ a ∈ l, f a = Except.ok (g a)) :
    l.mapM f = Except.ok (l.map g) := by
  induction l with
  | nil => rfl
  | cons a l ih =>
    rw [List.mapM_cons, h a (by simp), ih (fun x hx => h x (by simp [hx]))]
    rfl

theorem processTool_spec {cfg td : Json} (hs : wfServerB cfg = true)
    (ht : wfToolB td = true) :
    processTool cfg (jGetD cfg "tools" (Json.arr [])) td
      = Except.ok (if specKeep (whitelistEntries cfg) (toolNameOf td)
          then some (specWrapper cfg td) else none) := by
  cases cfg with
  | obj kvs =>
    cases td with
    | obj tkvs =>
      simp only [wfServerB, Bool.and_eq_true] at hs
      simp only [wfToolB] at ht
      obtain ⟨hsn, hstools⟩ := hs
      cases hsname : dictLookup kvs "name" with
      | none => rw [hsname] at hsn; simp at hsn
      | some sn =>
      cases htname : dictLookup tkvs "name" with
      | none => rw [htname] at ht; simp at ht
      | some tn =>
      have hws : ∃ ws, jGetD (Json.obj kvs) "tools" (Json.arr []) = Json.arr ws
          ∧ whitelistEntries (Json.obj kvs) = ws := by
        cases hto : dictLookup kvs "tools" with
        | none => exact ⟨[], by simp [jGetD, hto], by simp [whitelistEntries, jGetD, hto]⟩
        | some w =>
          rw [hto] at hstools
          cases w with
          | arr ws =>
            exact ⟨ws, by simp [jGetD, hto], by simp [whitelistEntries, jGetD, hto]⟩
          | null => simp at hstools
          | bool b => simp at hstools
          | num n => simp at hstools
          | str s => simp at hstools
          | obj o => simp at hstools
      obtain ⟨ws, hw1, hw2⟩ := hws
      rw [hw1, hw2]
      have hinit : MCPClientTool.init (Json.obj kvs) (Json.obj tkvs)
          = Except.ok (specWrapper (Json.obj kvs) (Json.obj tkvs)) := by
        simp [MCPClientTool.init, getItem_obj_some hsname, getItem_obj_some htname,
          dictGet, specWrapper, jGetD, hsname, htname,
          Bind.bind, Except.bind, Pure.pure, Except.pure]
      have htname2 : toolNameOf (Json.obj tkvs) = tn := by
        simp [toolNameOf, jGetD, htname]
      cases ws with
      | nil =>
        simp [processTool, dictGet, htname, pyTruthy, specKeep, hinit,
          Bind.bind, Except.bind, Pure.pure, Except.pure]
      | cons w ws' =>
        cases hmem : (w :: ws').any (fun y => jsonEqB y tn) with
        | true =>
          simp [processTool, dictGet, htname, pyTruthy, pyInVal, specKeep,
            htname2, hmem, hinit, Bind.bind, Except.bind, Pure.pure, Except.pure]
        | false =>
          simp [processTool, dictGet, htname, pyTruthy, pyInVal, specKeep,
            htname2, hmem, hinit, Bind.bind, Except.bind, Pure.pure, Except.pure]
    | null => simp [wfToolB] at ht
    | bool b => simp [wfToolB] at ht
    | num n => simp [wfToolB] at ht
    | str s => simp [wfToolB] at ht
    | arr xs => simp [wfToolB] at ht
  | null => simp [wfServerB] at hs
  | bool b => simp [wfServerB] at hs
  | num n => simp [wfServerB] at hs
  | str s => simp [wfServerB] at hs
  | arr xs => simp [wfServerB] at hs

theorem processServer_spec {env : EnvMap} {net : Net} {cfg : Json}
    {tds : List Json} (hs : wfServerB cfg = true)
    (hdisc : discover_mcp_tools env cfg net = Except.ok (Json.arr tds))
    (htd : ∀ td ∈ tds, wfToolB td = true) :
    processServer env net cfg = Except.ok ((tds.filter (fun td =>
      specKeep (whitelistEntries cfg) (toolNameOf td))).map (specWrapper cfg)) := by
  cases cfg with
  | obj kvs =>
    have hmap := mapM_ok_of_forall
      (processTool (Json.obj kvs) (jGetD (Json.obj kvs) "tools" (Json.arr [])))
      (fun td => if specKeep (whitelistEntries (Json.obj kvs)) (toolNameOf td)
        then some (specWrapper (Json.obj kvs) td) else none)
      tds (fun td htd' => processTool_spec hs (htd td htd'))
    simp only [jGetD] at hmap
    unfold List.mapM at hmap
    simp [processServer, dictGet, hdisc, pyIter, hmap, filterMap_id_map_if,
      Bind.bind, Except.bind, Pure.pure, Except.pure]
  | null => simp [wfServerB] at hs
  | bool b => simp [wfServerB] at hs
  | num n => simp [wfServerB] at hs
  | str s => simp [wfServerB] at hs
  | arr xs => simp [wfServerB] at hs

/-- C4: `create_mcp_client_tools` registers, for each server in config
order and each tool in that server's discovery order, exactly the
discovered tools whose name is in the server's whitelist when the
whitelist is non-empty — all of them when it is empty or absent — and
each surviving pair yields one wrapper whose exposed name is
`"\x7bserver.name\x7d_\x7btool.name\x7d"` (the name formula is part of
`specWrapper`). -/
theorem C4_registry_filter_and_order (env : EnvMap) (net : Net)
    (cfgs : List Json) (tds : Json → List Json)
    (hload : load_mcp_config env = Except.ok (Json.arr cfgs))
    (hwf : ∀ cfg ∈ cfgs, wfServerB cfg = true)
    (hdisc : ∀ cfg ∈ cfgs,
      discover_mcp_tools env cfg net = Except.ok (Json.arr (tds cfg)))
    (htd : ∀ cfg ∈ cfgs, ∀ td ∈ tds cfg, wfToolB td = true) :
    create_mcp_client_tools env net = Except.ok (specRegistry tds cfgs) := by
  have hmap := mapM_ok_of_forall (processServer env net)
    (fun cfg => ((tds cfg).filter (fun td =>
      specKeep (whitelistEntries cfg) (toolNameOf td))).map (specWrapper cfg))
    cfgs
    (fun cfg hc => processServer_spec (hwf cfg hc) (hdisc cfg hc) (htd cfg hc))
  unfold List.mapM at hmap
  simp [create_mcp_client_tools, hload, pyIter, hmap, specRegistry,
    Bind.bind, Except.bind, Pure.pure, Except.pure]

/-- The end-to-end environment of the spec's whitelist example: one
server `"fs"` with an empty whitelist. -/
def envFs : EnvMap := fun v =>
  if v = "MCP_SERVERS_JSON" then
    some "[\x7b\"name\": \"fs\", \"url\": \"u\", \"tools\": []\x7d]"
  else none

/-- A transport answering `tools/list` with one tool named `"read"`. -/
def netRead : Net := fun _ _ payload =>
  match getItem payload "method" with
  | Except.ok (Json.str "tools/list") =>
    Except.ok (Json.obj [("result", Json.obj [("tools",
      Json.arr [Json.obj [("name", Json.str "read")]])])])
  | _ => Except.error "no route"

/-- Witness for C4: the registry built from `envFs`/`netRead` is exactly
one wrapper for server `"fs"` and tool `"read"`, and its exposed name is
`"fs_read"`. -/
theorem C4_witness :
    create_mcp_client_tools envFs netRead = Except.ok
      [specWrapper
        (Json.obj [("name", Json.str "fs"), ("url", Json.str "u"),
          ("tools", Json.arr [])])
        (Json.obj [("name", Json.str "read")])] ∧
    (specWrapper
        (Json.obj [("name", Json.str "fs"), ("url", Json.str "u"),
          ("tools", Json.arr [])])
        (Json.obj [("name", Json.str "read")]))._name = "fs_read" :=
  ⟨(C4_registry_filter_and_order envFs netRead
      [Json.obj [("name", Json.str "fs"), ("url", Json.str "u"),
        ("tools", Json.arr [])]]
      (fun _ => [Json.obj [("name", Json.str "read")]])
      (by rfl)
      (by intro cfg hc
          simp only [List.mem_singleton] at hc
          subst hc
          rfl)
      (by intro cfg hc
          simp only [List.mem_singleton] at hc
          subst hc
          rfl)
      (by intro cfg hc td htd'
          simp only [List.mem_singleton] at htd'
          subst htd'
          rfl)).trans (by rfl),
   rfl⟩

/-- C9: when discovery returns a tool definition lacking a `name` key,
registration is not total: with an empty (or absent) whitelist,
`create_mcp_client_tools` raises `KeyError` from
`MCPClientTool.__init__`'s direct `tool_definition["name"]` index,
while with a non-empty whitelist not containing `""` the tool is
silently skipped because its defaulted name `""` fails the filter. -/
theorem C9_nameless_tool (env : EnvMap) (net : Net) (cfg : Json)
    (tdkvs : List (String × Json))
    (hload : load_mcp_config env = Except.ok (Json.arr [cfg]))
    (hwf : wfServerB cfg = true)
    (hdisc : discover_mcp_tools env cfg net = Except.ok (Json.arr [Json.obj tdkvs]))
    (hname : dictLookup tdkvs "name" = none) :
    (jGetD cfg "tools" (Json.arr []) = Json.arr [] →
      create_mcp_client_tools env net = Except.error ("KeyError: " ++ "name")) ∧
    (∀ ws : List Json, jGetD cfg "tools" (Json.arr []) = Json.arr ws →
      ws.isEmpty = false →
      ws.any (fun y => jsonEqB y (Json.str "")) = false →
      create_mcp_client_tools env net = Except.ok []) := by
  cases cfg with
  | obj kvs =>
    constructor
    · intro hwl
      simp only [jGetD] at hwl
      have hsn : (dictLookup kvs "name").isSome = true := by
        simp only [wfServerB, Bool.and_eq_true] at hwf
        exact hwf.1
      have hpt : processTool (Json.obj kvs)
          ((dictLookup kvs "tools").getD (Json.arr [])) (Json.obj tdkvs)
          = Except.error ("KeyError: " ++ "name") := by
        cases hsname : dictLookup kvs "name" with
        | none => rw [hsname] at hsn; simp at hsn
        | some sn =>
          simp [processTool, dictGet, hname, hwl, pyTruthy,
            MCPClientTool.init, getItem, hsname, hname,
            Bind.bind, Except.bind, Pure.pure, Except.pure]
      simp [create_mcp_client_tools, hload, pyIter, processServer, dictGet,
        hdisc, hpt, List.mapM_cons, List.mapM.loop,
        Bind.bind, Except.bind, Pure.pure, Except.pure]
    · intro ws hwl hne hmem
      simp only [jGetD] at hwl
      have hpt : processTool (Json.obj kvs)
          ((dictLookup kvs "tools").getD (Json.arr [])) (Json.obj tdkvs)
          = Except.ok none := by
        simp [processTool, dictGet, hname, hwl, pyTruthy, hne, pyInVal, hmem,
          Bind.bind, Except.bind, Pure.pure, Except.pure]
      simp [create_mcp_client_tools, hload, pyIter, processServer, dictGet,
        hdisc, hpt, List.mapM_cons, List.mapM.loop,
        Bind.bind, Except.bind, Pure.pure, Except.pure]
  | null => simp [wfServerB] at hwf
  | bool b => simp [wfServerB] at hwf
  | num n => simp [wfServerB] at hwf
  | str s => simp [wfServerB] at hwf
  | arr xs => simp [wfServerB] at hwf

/-- A server list with no whitelist key. -/
def envK1 : EnvMap := fun v =>
  if v = "MCP_SERVERS_JSON" then
    some "[\x7b\"name\": \"s\", \"url\": \"u\"\x7d]"
  else none

/-- A server list whose whitelist is `["a"]`. -/
def envK2 : EnvMap := fun v =>
  if v = "MCP_SERVERS_JSON" then
    some "[\x7b\"name\": \"s\", \"url\": \"u\", \"tools\": [\"a\"]\x7d]"
  else none

/-- A transport whose `tools/list` answer contains one tool definition
with no `name` key. -/
def netNameless : Net := fun _ _ payload =>
  match getItem payload "method" with
  | Except.ok (Json.str "tools/list") =>
    Except.ok (Json.obj [("result", Json.obj [("tools",
      Json.arr [Json.obj []])])])
  | _ => Except.error "no route"

/-- Witness for C9: a nameless tool raises `KeyError` under an absent
whitelist and is skipped under whitelist `["a"]`. -/
theorem C9_witness :
    create_mcp_client_tools envK1 netNameless
      = Except.error ("KeyError: " ++ "name") ∧
    create_mcp_client_tools envK2 netNameless = Except.ok [] :=
  ⟨(C9_nameless_tool envK1 netNameless
      (Json.obj [("name", Json.str "s"), ("url", Json.str "u")]) []
      (by rfl) (by rfl) (by rfl) rfl).1 (by rfl),
   (C9_nameless_tool envK2 netNameless
      (Json.obj [("name", Json.str "s"), ("url", Json.str "u"),
        ("tools", Json.arr [Json.str "a"])]) []
      (by rfl) (by rfl) (by rfl) rfl).2 [Json.str "a"] (by rfl) (by rfl) (by rfl)⟩
